import Mathlib

/-!
Shallow embedding of the AnyVec repository (crates `unioncollections` /
`selectvec` / `select_core`): a type-changing contiguous container.

The container `UnionVec<T, U>` (src/src/collections/unionvec.rs) stores a
`Vec<U::Union>` of overlapping storage cells, with a phantom tag `T` for the
single logical element type.  Its documented invariant is that every occupied
cell holds a live value of the current type `T`, so at the level of observable
values a vector is modeled by the list of its live `T` values together with the
capacity of the backing allocation (`data : List α`, `cap : Nat`).

The raw union cell itself (macro `Union!` in src/select_core/src/union.rs,
wrapped by `SelectHandle` in src/select_core/src/select.rs) is modeled
separately by a tagged sum `Union2`: writing a value of one member type and
reading it back at the same type is the identity, while reading at the other
member type is undefined behavior in Rust and is modeled as `none`.

Side effects that matter to the specification are made explicit:
  * destructor runs (`Vec::clear` inside `change_to`) are returned as the list
    of values the destructor ran on, in index order;
  * a panic of a caller-supplied closure inside `map` / `filter_map` is modeled
    by a closure returning `Option` (`none` = panic), and the loop returns the
    buffer state observable by the unwinder at that moment;
  * type layouts (`mem::size_of` / `mem::align_of`), which Lean cannot compute
    for Rust types, are explicit `Layout` parameters.
-/

set_option autoImplicit false
set_option linter.unusedVariables false

namespace AnyVec

/-- Model of `core::alloc::Layout` knowledge about a Rust type: its size and
alignment in bytes (`mem::size_of` and `mem::align_of`). -/
structure Layout where
  size : Nat
  align : Nat
deriving DecidableEq, Repr

/-- Model of the macro-generated two-member overlapping-storage cell
`union Union2<A, B>` (src/select_core/src/union.rs, `Union!` macro).  The Rust
union is untagged; the tag here records which member was last written, so that
reading the cell at the wrong member type — undefined behavior in the source —
can be modeled as `none` by the cast functions below. -/
inductive Union2 (α β : Type) where
  | fst : α → Union2 α β
  | snd : β → Union2 α β
deriving DecidableEq, Repr

/-- Model of `TypeSelect::cast::<A>` (src/select_core/src/select.rs, lines
33-38) on a `Union2` cell, at the first member type: a bitwise read of the cell
as `A`.  Defined (`some`) exactly when the cell currently holds its first
member; reading a cell that holds the other member is UB in the source. -/
def Union2.castFst {α β : Type} : Union2 α β → Option α
  | .fst a => some a
  | .snd _ => none

/-- Model of `TypeSelect::cast::<B>` at the second member type. -/
def Union2.castSnd {α β : Type} : Union2 α β → Option β
  | .fst _ => none
  | .snd b => some b

/-- Model of `SelectHandle<T, U>` (src/select_core/src/select.rs, lines 60-66)
over a two-member universe `(α, β)` with current type the first member: a raw
`Union2` cell whose content the phantom tag asserts to be an `α`. -/
structure SelectHandle (α β : Type) where
  data : Union2 α β
deriving DecidableEq, Repr

/-- Model of `SelectHandle::from` / `from_unchecked` (select.rs lines 71-75 and
184-189): writes the given `α` value into a fresh cell. -/
def SelectHandle.from_val {α β : Type} (t : α) : SelectHandle α β :=
  ⟨Union2.fst t⟩

/-- Model of `SelectHandle::into` (select.rs lines 88-94): reads the cell back
at the current type `α` (a `ptr::read`), consuming the handle without running
the destructor a second time.  `none` models the UB of reading a cell whose
live member is not the current type. -/
def SelectHandle.into {α β : Type} (h : SelectHandle α β) : Option α :=
  h.data.castFst

/-- Model of `UnionVec<T, U>` (src/src/collections/unionvec.rs, lines 16-19):
`data` is the sequence of live `T` values in the occupied cells `[0, len)`
(the struct invariant: every occupied cell holds a live `T`), and `cap` is the
capacity of the backing `Vec<U::Union>` allocation, counted in cells. -/
structure UnionVec (α : Type) where
  data : List α
  cap : Nat
deriving DecidableEq, Repr

namespace UnionVec

/-- Model of `UnionVec::len` (unionvec.rs lines 67-70). -/
def len {α : Type} (v : UnionVec α) : Nat :=
  v.data.length

/-- Model of `UnionVec::capacity` (unionvec.rs lines 72-75). -/
def capacity {α : Type} (v : UnionVec α) : Nat :=
  v.cap

/-- Model of `UnionVec::new` (unionvec.rs lines 34-40): an empty `Vec::new()`,
which performs no allocation — modeled as capacity 0. -/
def new {α : Type} : UnionVec α :=
  ⟨[], 0⟩

/-- Model of `UnionVec::with_capacity` (unionvec.rs lines 59-65): an empty
`Vec::with_capacity(n)`, able to hold exactly `n` elements without
reallocating. -/
def with_capacity {α : Type} (n : Nat) : UnionVec α :=
  ⟨[], n⟩

/-- Model of `UnionVec::push` (unionvec.rs lines 77-81): wraps the item in a
`SelectHandle`, unwraps the raw cell, and appends it with `Vec::push`.  When
the vector is full, `Vec::push` grows the allocation geometrically (the spec's
"standard doubling / geometric growth policy"); while `len < cap` no
reallocation happens and the capacity is unchanged. -/
def push {α : Type} (v : UnionVec α) (x : α) : UnionVec α :=
  { data := v.data ++ [x]
    cap := if v.data.length < v.cap then v.cap else max 1 (2 * v.cap) }

/-- Model of `UnionVec::pop` (unionvec.rs lines 83-86):
`self.data.pop().map(|union| union.cast::<T>())` — if non-empty, reads the
last cell at the current type and shrinks the length by one; the allocation is
untouched. -/
def pop {α : Type} (v : UnionVec α) : Option α × UnionVec α :=
  match v.data.getLast? with
  | none => (none, v)
  | some x => (some x, ⟨v.data.dropLast, v.cap⟩)

/-- Model of `Vec::clear` on the backing `Vec<U::Union>` as called by
`UnionVec::change_to` (unionvec.rs line 103).  `Vec::clear` drops each element
and sets the length to 0, capacity untouched — but the elements here are the
untagged unions `Union2..Union10` (src/select_core/src/union.rs), which have
no drop glue and no `Drop` impl, so dropping them is a no-op: no destructor of
the logical element type `T` runs, and the live payloads are leaked.  The
second component records the sequence of `T` values the element destructor
ran on — which is empty. -/
def clear {α : Type} (v : UnionVec α) : UnionVec α × List α :=
  (⟨[], v.cap⟩, [])

/-- Model of `UnionVec::change_to::<S>` (unionvec.rs lines 98-109): clears the
underlying `Vec` and rebuilds a `UnionVec` from the same — now empty —
allocation, retagged to the selected type `β`.  The second component is the
trace of element-destructor runs inherited from `clear` (empty: the cleared
union cells have no drop glue, so the old elements leak). -/
def change_to {α : Type} (β : Type) (v : UnionVec α) : UnionVec β × List α :=
  let c := clear v
  (⟨[], c.1.cap⟩, c.2)

/-- Model of dropping a `UnionVec` value itself, as happens to the consumed
`self` at the end of a call that returns early (e.g. `into_vec`'s error
path).  `UnionVec` has no `Drop` impl (unionvec.rs line 15 derives only
Ord/PartialOrd/Eq/PartialEq/Clone/Default/Hash), so dropping it just drops
the backing `Vec<U::Union>`: the allocation is freed, and since the untagged
union cells have no drop glue, the current type's destructor runs on no
element — the live payloads are leaked and nothing of the vector survives.
Returns the sequence of element values the destructor ran on: empty. -/
def drop_trace {α : Type} (v : UnionVec α) : List α :=
  []

/-- Model of the per-cell loop of `UnionVec::map` (unionvec.rs lines 157-200):
for each index `i` in `0..len`, in increasing order, read the cell at `i` as
the current type, apply `f`, and write the result back into the same cell
index.  The recursion consumes the unread cells front to back and produces the
rewritten cells in the same order. -/
def mapCells {α β : Type} (f : α → β) : List α → List β
  | [] => []
  | x :: todo => f x :: mapCells f todo

/-- Model of `UnionVec::map::<S, F>` (unionvec.rs lines 137-206): rewrites
every cell in place via `mapCells` and returns the vector retagged to the
output type; the backing allocation — and hence the capacity — is reused. -/
def map {α β : Type} (f : α → β) (v : UnionVec α) : UnionVec β :=
  ⟨mapCells f v.data, v.cap⟩

/-- Model of the per-cell loop of `UnionVec::filter_map` (unionvec.rs lines
249-291): cell `i` is read, `f` applied; a `some` result is written back at
the compacted index `i - nones`, a `none` increments the skip counter
`nones`.  Returns the cells written (the compacted survivors, in order)
together with the final value of `nones`. -/
def filterMapCells {α β : Type} (f : α → Option β) : List α → Nat → List β × Nat
  | [], nones => ([], nones)
  | x :: todo, nones =>
    match f x with
    | some y =>
      let r := filterMapCells f todo nones
      (y :: r.1, r.2)
    | none => filterMapCells f todo (nones + 1)

/-- Model of `UnionVec::filter_map::<S, F>` (unionvec.rs lines 244-297): runs
the compacting loop and sets the final length to `len - nones`, i.e. to the
number of cells actually written; the allocation and capacity are reused. -/
def filter_map {α β : Type} (f : α → Option β) (v : UnionVec α) : UnionVec β :=
  ⟨(filterMapCells f v.data 0).1, v.cap⟩

end UnionVec

/-- State of the backing buffer as observed by the panic unwinder when a
caller-supplied closure panics in the middle of `UnionVec::map` or
`UnionVec::filter_map`: `len` is the vector's logical length at that moment
(`data.set_len(0)` ran before the loop — unionvec.rs lines 165 and 254),
`written` holds the outputs already written into the leading cells, and
`untouched` holds the source values still sitting in the trailing cells.  The
value being passed to the closure itself lives in the closure's stack frame,
no longer in any cell. -/
structure MapPanicState (α β : Type) where
  len : Nat
  written : List β
  untouched : List α
deriving DecidableEq, Repr

/-- The values the vector's eventual teardown would run a destructor on if it
ran on a buffer in panic state `s`: the occupants of the first `s.len` cells
(everything beyond the logical length is never dropped, only leaked). -/
def MapPanicState.droppedOnUnwind {α β : Type} (s : MapPanicState α β) : List β :=
  s.written.take s.len

namespace UnionVec

/-- Panic-instrumented model of the `UnionVec::map` loop: the closure returns
`none` to model a panic at that element.  `done` accumulates (in reverse) the
outputs already written back.  On a panic, the loop is abandoned and the error
carries the buffer state the unwinder sees: logical length 0 (set before the
loop), the written prefix, and the untouched suffix. -/
def mapLoop {α β : Type} (f : α → Option β) :
    List β → List α → Except (MapPanicState α β) (List β)
  | done, [] => .ok done.reverse
  | done, x :: todo =>
    match f x with
    | some y => mapLoop f (y :: done) todo
    | none => .error ⟨0, done.reverse, todo⟩

/-- Panic-instrumented model of `UnionVec::map` (unionvec.rs lines 137-206):
`data.set_len(0)` before the loop, the per-cell loop, and `data.set_len(len)`
(restoring the original length) only after the loop completes. -/
def mapRun {α β : Type} (f : α → Option β) (v : UnionVec α) :
    Except (MapPanicState α β) (UnionVec β) :=
  match mapLoop f [] v.data with
  | .ok ys => .ok ⟨ys, v.cap⟩
  | .error s => .error s

/-- Panic-instrumented model of the `UnionVec::filter_map` loop, with the
`nones` skip counter.  The closure result is doubly optional: the outer `none`
models a panic, `some none` a filtered-out element, `some (some y)` a kept
element. -/
def filterMapLoop {α β : Type} (f : α → Option (Option β)) :
    List β → Nat → List α → Except (MapPanicState α β) (List β × Nat)
  | done, nones, [] => .ok (done.reverse, nones)
  | done, nones, x :: todo =>
    match f x with
    | some (some y) => filterMapLoop f (y :: done) nones todo
    | some none => filterMapLoop f done (nones + 1) todo
    | none => .error ⟨0, done.reverse, todo⟩

/-- Panic-instrumented model of `UnionVec::filter_map` (unionvec.rs lines
244-297): `data.set_len(0)` before the loop, the compacting loop, and
`data.set_len(len - nones)` only after the loop completes. -/
def filterMapRun {α β : Type} (f : α → Option (Option β)) (v : UnionVec α) :
    Except (MapPanicState α β) (UnionVec β) :=
  match filterMapLoop f [] 0 v.data with
  | .ok r => .ok ⟨r.1, v.cap⟩
  | .error s => .error s

end UnionVec

/-- Model of the alignment error `AlignError` returned by `UnionVec::into_vec`
(unionvec.rs lines 390-391). -/
inductive AlignError where
  | mk
deriving DecidableEq, Repr

/-- Model of a plain `std::vec::Vec<T>`: its elements and its capacity,
counted in elements of `T`. -/
structure PlainVec (α : Type) where
  data : List α
  cap : Nat
deriving DecidableEq, Repr

namespace UnionVec

/-- Model of `UnionVec::into_vec` (unionvec.rs lines 300-339).  `cellL` is the
layout of the union cell `U::Union`, `tL` the layout of the current element
type `T`.  If `align_of::<U::Union>() % align_of::<T>() != 0` the function
returns the bare `Err(AlignError)` — no cell has been read or written at that
point, but `self`, consumed by value, is then dropped (see `drop_trace`: the
allocation is freed and the elements leak).  Otherwise every cell's `T` value
is rewritten contiguously at stride `size_of::<T>()` from the front of the
same buffer, and the buffer is handed off as a plain `Vec<T>` of the same
length with capacity `old_cap * size_of::<U::Union>() / size_of::<T>()`. -/
def into_vec {α : Type} (cellL tL : Layout) (v : UnionVec α) :
    Except AlignError (PlainVec α) :=
  if cellL.align % tL.align ≠ 0 then
    .error AlignError.mk
  else
    let old_cap_in_bytes := v.cap * cellL.size
    let new_cap := old_cap_in_bytes / tL.size
    .ok ⟨v.data, new_cap⟩

/-- Model of the shrink-reallocation condition of `UnionVec::into_vec`
(unionvec.rs line 330): the `Global.realloc` branch runs exactly when
`old_cap * size_of::<U::Union>()` is not divisible by `size_of::<T>()`, `T`
being the result element type. -/
def into_vec_reallocs (cellL tL : Layout) (old_cap : Nat) : Bool :=
  (old_cap * cellL.size) % tL.size != 0

/-- Model of `UnionVec::into_vec_map::<S, F>` (unionvec.rs lines 342-387):
like `into_vec` but applying `f` to each element as it is rewritten.  `tOut`
is the layout of the output type `<U as Select<S>>::Output`; the alignment
gate and the new capacity are computed against `tOut`.  As in `into_vec`, the
error is the bare `Err(AlignError)` and the consumed vector is dropped. -/
def into_vec_map {α β : Type} (cellL tOut : Layout) (f : α → β) (v : UnionVec α) :
    Except AlignError (PlainVec β) :=
  if cellL.align % tOut.align ≠ 0 then
    .error AlignError.mk
  else
    let old_cap_in_bytes := v.cap * cellL.size
    let new_cap := old_cap_in_bytes / tOut.size
    .ok ⟨mapCells f v.data, new_cap⟩

/-- Model of the shrink-reallocation condition of `UnionVec::into_vec_map`
(unionvec.rs line 378): the source tests
`old_cap_in_bytes % mem::size_of::<T>() != 0` with `T` the *input* element
type (`tSelf`), not the output type `tOut` used everywhere else in the
function (compare selectvec.rs line 662, where the analogous
`try_to_vec_map` tests the output type's size). -/
def into_vec_map_reallocs (cellL tSelf tOut : Layout) (old_cap : Nat) : Bool :=
  (old_cap * cellL.size) % tSelf.size != 0

/-- Model of pushing a sequence of elements one by one with `UnionVec::push`,
front to back. -/
def pushAll {α : Type} (v : UnionVec α) (xs : List α) : UnionVec α :=
  xs.foldl push v

end UnionVec

/-- An element is kept by a (possibly panicking) `filter_map` closure when the
closure neither panics (outer `none`) nor declines (`some none`). -/
def keptBy {α β : Type} (f : α → Option (Option β)) (x : α) : Bool :=
  match f x with
  | some (some _) => true
  | _ => false

/-! ## Shared lemmas about the loop models -/

theorem mapCells_length {α β : Type} (f : α → β) :
    ∀ xs : List α, (UnionVec.mapCells f xs).length = xs.length
  | [] => rfl
  | _ :: xs => by simp [UnionVec.mapCells, mapCells_length f xs]

theorem mapCells_getElem? {α β : Type} (f : α → β) :
    ∀ (xs : List α) (i : Nat), (UnionVec.mapCells f xs)[i]? = (xs[i]?).map f
  | [], i => by simp [UnionVec.mapCells]
  | x :: xs, 0 => by simp [UnionVec.mapCells]
  | x :: xs, i + 1 => by simp [UnionVec.mapCells, mapCells_getElem? f xs i]

theorem mapCells_eq_map {α β : Type} (f : α → β) :
    ∀ xs : List α, UnionVec.mapCells f xs = xs.map f
  | [] => rfl
  | x :: xs => by simp [UnionVec.mapCells, mapCells_eq_map f xs]

theorem filterMapCells_fst {α β : Type} (f : α → Option β) :
    ∀ (xs : List α) (nones : Nat),
      (UnionVec.filterMapCells f xs nones).1 = xs.filterMap f
  | [], nones => by simp [UnionVec.filterMapCells]
  | x :: xs, nones => by
    cases hf : f x with
    | some y =>
      simp [UnionVec.filterMapCells, hf, List.filterMap_cons, filterMapCells_fst f xs nones]
    | none =>
      simp [UnionVec.filterMapCells, hf, List.filterMap_cons, filterMapCells_fst f xs (nones + 1)]

theorem length_filterMap_eq_countP {α β : Type} (f : α → Option β) :
    ∀ xs : List α,
      (xs.filterMap f).length = xs.countP fun x => (f x).isSome
  | [] => rfl
  | x :: xs => by
    cases hf : f x with
    | some y =>
      simp [List.filterMap_cons, hf, List.countP_cons,
        length_filterMap_eq_countP f xs]
    | none =>
      simp [List.filterMap_cons, hf, List.countP_cons,
        length_filterMap_eq_countP f xs]

theorem mapLoop_error_len {α β : Type} (f : α → Option β) :
    ∀ (xs : List α) (done : List β) (s : MapPanicState α β),
      UnionVec.mapLoop f done xs = .error s → s.len = 0
  | [], done, s, h => by simp [UnionVec.mapLoop] at h
  | x :: todo, done, s, h => by
    rw [UnionVec.mapLoop] at h
    cases hf : f x with
    | some y =>
      rw [hf] at h
      exact mapLoop_error_len f todo (y :: done) s h
    | none =>
      rw [hf] at h
      cases h
      rfl

theorem mapLoop_ok_length {α β : Type} (f : α → Option β) :
    ∀ (xs : List α) (done ys : List β),
      UnionVec.mapLoop f done xs = .ok ys → ys.length = done.length + xs.length
  | [], done, ys, h => by
    simp [UnionVec.mapLoop] at h
    subst h
    simp
  | x :: todo, done, ys, h => by
    rw [UnionVec.mapLoop] at h
    cases hf : f x with
    | some y =>
      rw [hf] at h
      have := mapLoop_ok_length f todo (y :: done) ys h
      simp only [List.length_cons] at this ⊢
      omega
    | none =>
      rw [hf] at h
      cases h

theorem filterMapLoop_error_len {α β : Type} (f : α → Option (Option β)) :
    ∀ (xs : List α) (done : List β) (nones : Nat) (s : MapPanicState α β),
      UnionVec.filterMapLoop f done nones xs = .error s → s.len = 0
  | [], done, nones, s, h => by simp [UnionVec.filterMapLoop] at h
  | x :: todo, done, nones, s, h => by
    rw [UnionVec.filterMapLoop] at h
    cases hf : f x with
    | some y? =>
      cases y? with
      | some y =>
        rw [hf] at h
        exact filterMapLoop_error_len f todo (y :: done) nones s h
      | none =>
        rw [hf] at h
        exact filterMapLoop_error_len f todo done (nones + 1) s h
    | none =>
      rw [hf] at h
      cases h
      rfl

theorem filterMapLoop_ok_length {α β : Type} (f : α → Option (Option β)) :
    ∀ (xs : List α) (done : List β) (nones : Nat) (r : List β × Nat),
      UnionVec.filterMapLoop f done nones xs = .ok r →
      r.1.length = done.length + xs.countP (keptBy f)
  | [], done, nones, r, h => by
    simp [UnionVec.filterMapLoop] at h
    simp [← h]
  | x :: todo, done, nones, r, h => by
    rw [UnionVec.filterMapLoop] at h
    cases hf : f x with
    | some y? =>
      cases y? with
      | some y =>
        rw [hf] at h
        have := filterMapLoop_ok_length f todo (y :: done) nones r h
        simp [List.countP_cons, keptBy, hf] at this ⊢
        omega
      | none =>
        rw [hf] at h
        have := filterMapLoop_ok_length f todo done (nones + 1) r h
        simp [List.countP_cons, keptBy, hf] at this ⊢
        omega
    | none =>
      rw [hf] at h
      cases h

/-- Sanity link between the panic-instrumented loop and the plain loop: a
closure that never panics completes and writes exactly `UnionVec.mapCells`. -/
theorem mapLoop_total {α β : Type} (g : α → β) :
    ∀ (xs : List α) (done : List β),
      UnionVec.mapLoop (fun x => some (g x)) done xs =
        .ok (done.reverse ++ UnionVec.mapCells g xs)
  | [], done => by simp [UnionVec.mapLoop, UnionVec.mapCells]
  | x :: todo, done => by
    rw [UnionVec.mapLoop]
    simp [UnionVec.mapCells, mapLoop_total g todo (g x :: done)]

/-- Sanity link at the vector level: on a non-panicking closure, the
instrumented `mapRun` succeeds with exactly the result of `map`. -/
theorem mapRun_total {α β : Type} (g : α → β) (v : UnionVec α) :
    UnionVec.mapRun (fun x => some (g x)) v = .ok (UnionVec.map g v) := by
  unfold UnionVec.mapRun
  rw [mapLoop_total g v.data []]
  simp [UnionVec.map]

theorem pushAll_cap_data {α : Type} :
    ∀ (xs : List α) (v : UnionVec α), v.data.length + xs.length ≤ v.cap →
      (UnionVec.pushAll v xs).cap = v.cap ∧
      (UnionVec.pushAll v xs).data = v.data ++ xs
  | [], v, h => by simp [UnionVec.pushAll]
  | x :: rest, v, h => by
    have hlt : v.data.length < v.cap := by
      simp at h
      omega
    have hpush : UnionVec.push v x = ⟨v.data ++ [x], v.cap⟩ := by
      simp [UnionVec.push, hlt]
    have hstep : UnionVec.pushAll v (x :: rest) =
        UnionVec.pushAll ⟨v.data ++ [x], v.cap⟩ rest := by
      simp [UnionVec.pushAll, List.foldl_cons, hpush]
    have hrec := pushAll_cap_data rest ⟨v.data ++ [x], v.cap⟩ (by
      simp only [List.length_append, List.length_cons] at h ⊢
      simp only [List.length_cons, List.length_nil]
      omega)
    rw [hstep]
    refine ⟨hrec.1, ?_⟩
    rw [hrec.2]
    simp

/-! ## The claims -/

/-- C1: `UnionVec::map` returns a vector of the same length whose i-th element
is `f` applied to the source's i-th element, for every index; the
transformation runs cell by cell in increasing index order and each result is
written back into the same cell index of the same reused allocation, so the
capacity is unchanged as well. -/
theorem claim_C1_map_pointwise {α β : Type} (f : α → β) (v : UnionVec α) :
    (UnionVec.map f v).len = v.len ∧
    (UnionVec.map f v).cap = v.cap ∧
    ∀ i : Nat, (UnionVec.map f v).data[i]? = (v.data[i]?).map f := by
  refine ⟨?_, rfl, ?_⟩
  · simp [UnionVec.map, UnionVec.len, mapCells_length]
  · intro i
    exact mapCells_getElem? f v.data i

/-- C2: `UnionVec::filter_map` returns exactly the values `u` with
`f (v[i]) = some u`, compacted toward the front in the relative order of their
sources (`List.filterMap`); its length is the count of indices on which `f`
returns `some`, and the capacity is unchanged. -/
theorem claim_C2_filter_map_spec {α β : Type} (f : α → Option β) (v : UnionVec α) :
    (UnionVec.filter_map f v).data = v.data.filterMap f ∧
    (UnionVec.filter_map f v).len = v.data.countP (fun x => (f x).isSome) ∧
    (UnionVec.filter_map f v).cap = v.cap := by
  refine ⟨?_, ?_, rfl⟩
  · simpa [UnionVec.filter_map] using filterMapCells_fst f v.data 0
  · simp [UnionVec.filter_map, UnionVec.len, filterMapCells_fst f v.data 0,
      length_filterMap_eq_countP]

/-- C3: refuted on the code.  `change_to` on a concrete non-empty vector runs
the current type's destructor on *no* element: `self.data.clear()` drops
untagged `U::Union` cells that have no drop glue (the `Union!` macro
implements no `Drop`), so the destructor trace is empty rather than the full
element sequence the claim requires, and the live payloads are leaked — they
are neither destroyed nor carried into the retagged (empty) result. -/
theorem claim_C3_change_to_runs_no_destructor :
    (UnionVec.change_to Bool (⟨[1, 2], 2⟩ : UnionVec Nat)).2 = [] ∧
    (UnionVec.change_to Bool (⟨[1, 2], 2⟩ : UnionVec Nat)).2 ≠ [1, 2] ∧
    (⟨[1, 2], 2⟩ : UnionVec Nat).data ≠ [] ∧
    (UnionVec.change_to Bool (⟨[1, 2], 2⟩ : UnionVec Nat)).1.data = ([] : List Bool) := by
  decide

/-- C4: the vector returned by `UnionVec::change_to` has length 0 and exactly
the capacity of the input vector; `change_to` never changes the capacity. -/
theorem claim_C4_change_to_frame {α : Type} (β : Type) (v : UnionVec α) :
    (UnionVec.change_to β v).1.len = 0 ∧
    (UnionVec.change_to β v).1.cap = v.cap :=
  ⟨rfl, rfl⟩

/-- C5 counterexample: at cell alignment 8 and target alignment 3 the
conversion of a non-empty vector fails with the *bare* `AlignError` — the
error value carries no vector back to the caller — and the consumed vector's
teardown runs the element destructor on nothing, although the vector held an
element: the original vector is destroyed (allocation freed, payload leaked),
not left "unmodified and usable under its original type" as the claim's final
clause states. -/
theorem claim_C5_counterexample :
    UnionVec.into_vec ⟨8, 8⟩ ⟨4, 3⟩ (⟨[true], 2⟩ : UnionVec Bool) =
      .error AlignError.mk ∧
    UnionVec.drop_trace (⟨[true], 2⟩ : UnionVec Bool) = [] ∧
    (⟨[true], 2⟩ : UnionVec Bool).data ≠ [] :=
  ⟨rfl, rfl, by decide⟩

/-- C5 (amended): `UnionVec::into_vec` succeeds exactly when the union cell's
alignment is an exact multiple of the target type's alignment; on an
incompatible alignment it returns the typed `AlignError` rather than
crashing, decided before any cell is read or written — but the vector,
consumed by value, does not survive the error path: it is dropped with no
element destructor running, so its elements are leaked and it is not usable
afterwards. -/
theorem claim_C5_into_vec_gate {α : Type} (cellL tL : Layout) (v : UnionVec α) :
    (cellL.align % tL.align = 0 →
      UnionVec.into_vec cellL tL v =
        .ok ⟨v.data, v.cap * cellL.size / tL.size⟩) ∧
    (cellL.align % tL.align ≠ 0 →
      UnionVec.into_vec cellL tL v = .error AlignError.mk ∧
      UnionVec.drop_trace v = []) := by
  constructor
  · intro h
    simp [UnionVec.into_vec, h]
  · intro h
    simp [UnionVec.into_vec, UnionVec.drop_trace, h]

/-- C5 witness: a compatible layout succeeds; an incompatible one yields the
bare error and a destructor-free teardown of the consumed vector. -/
theorem claim_C5_witness :
    UnionVec.into_vec ⟨8, 8⟩ ⟨8, 4⟩ (⟨[true], 2⟩ : UnionVec Bool) =
      .ok ⟨[true], 2⟩ ∧
    (UnionVec.into_vec ⟨8, 8⟩ ⟨4, 3⟩ (⟨[false], 1⟩ : UnionVec Bool) =
      .error AlignError.mk ∧
      UnionVec.drop_trace (⟨[false], 1⟩ : UnionVec Bool) = []) :=
  ⟨(claim_C5_into_vec_gate ⟨8, 8⟩ ⟨8, 4⟩ ⟨[true], 2⟩).1 (by decide),
   (claim_C5_into_vec_gate ⟨8, 8⟩ ⟨4, 3⟩ ⟨[false], 1⟩).2 (by decide)⟩

/-- C6: divergence of `UnionVec::into_vec_map`'s shrink-realloc condition from
the claim.  With a 16-byte cell, a 16-byte input element type, a 12-byte output
element type and old capacity 1 (16 bytes): `into_vec` at a 12-byte result
type reallocs as the claim requires (16 % 12 ≠ 0), but `into_vec_map` tests
the *input* type's size (unionvec.rs line 378), finds 16 % 16 = 0 and skips
the shrink, while the claim (and selectvec.rs line 662) require the check
against the result element type's size. -/
theorem claim_C6_realloc_condition_divergence :
    UnionVec.into_vec_reallocs ⟨16, 8⟩ ⟨12, 4⟩ 1 = true ∧
    UnionVec.into_vec_map_reallocs ⟨16, 8⟩ ⟨16, 8⟩ ⟨12, 4⟩ 1 = false ∧
    (1 * 16) % 12 ≠ 0 := by
  decide

/-- C7: in `map` and `filter_map` the logical length is set to 0 before the
per-cell loop and restored (to the original length, resp. to the count of kept
elements) only after the loop completes: whenever the caller-supplied closure
panics partway through, the state seen by the unwinder has logical length 0,
so the teardown destroys no element (in particular none twice) and the
remaining cells' contents are leaked. -/
theorem claim_C7_panic_len_zero {α β : Type} (f : α → Option β)
    (g : α → Option (Option β)) (v w : UnionVec α) :
    (∀ s : MapPanicState α β, UnionVec.mapRun f v = .error s →
      s.len = 0 ∧ s.droppedOnUnwind = []) ∧
    (∀ u : UnionVec β, UnionVec.mapRun f v = .ok u → u.len = v.len) ∧
    (∀ s : MapPanicState α β, UnionVec.filterMapRun g w = .error s →
      s.len = 0 ∧ s.droppedOnUnwind = []) ∧
    (∀ u : UnionVec β, UnionVec.filterMapRun g w = .ok u →
      u.len = w.data.countP (keptBy g)) := by
  refine ⟨?_, ?_, ?_, ?_⟩
  · intro s hs
    unfold UnionVec.mapRun at hs
    cases hml : UnionVec.mapLoop f [] v.data with
    | ok ys => rw [hml] at hs; cases hs
    | error s0 =>
      rw [hml] at hs
      cases hs
      have h0 := mapLoop_error_len f v.data [] s hml
      exact ⟨h0, by simp [MapPanicState.droppedOnUnwind, h0]⟩
  · intro u hu
    unfold UnionVec.mapRun at hu
    cases hml : UnionVec.mapLoop f [] v.data with
    | ok ys =>
      rw [hml] at hu
      cases hu
      have hlen := mapLoop_ok_length f v.data [] ys hml
      simpa [UnionVec.len] using hlen
    | error s0 => rw [hml] at hu; cases hu
  · intro s hs
    unfold UnionVec.filterMapRun at hs
    cases hml : UnionVec.filterMapLoop g [] 0 w.data with
    | ok r => rw [hml] at hs; cases hs
    | error s0 =>
      rw [hml] at hs
      cases hs
      have h0 := filterMapLoop_error_len g w.data [] 0 s hml
      exact ⟨h0, by simp [MapPanicState.droppedOnUnwind, h0]⟩
  · intro u hu
    unfold UnionVec.filterMapRun at hu
    cases hml : UnionVec.filterMapLoop g [] 0 w.data with
    | ok r =>
      rw [hml] at hu
      cases hu
      have hlen := filterMapLoop_ok_length g w.data [] 0 r hml
      simpa [UnionVec.len] using hlen
    | error s0 => rw [hml] at hu; cases hu

/-- C7 witness: concrete runs of the instrumented loops, covering a mid-loop
panic in `map`, a completed `map`, a mid-loop panic in `filter_map`, and a
completed `filter_map`. -/
theorem claim_C7_witness :
    ((⟨0, [10], [2]⟩ : MapPanicState Nat Nat).len = 0 ∧
      (⟨0, [10], [2]⟩ : MapPanicState Nat Nat).droppedOnUnwind = []) ∧
    ((⟨[10, 11, 12], 3⟩ : UnionVec Nat).len =
      (⟨[0, 1, 2], 3⟩ : UnionVec Nat).len) ∧
    ((⟨0, [10], []⟩ : MapPanicState Nat Nat).len = 0 ∧
      (⟨0, [10], []⟩ : MapPanicState Nat Nat).droppedOnUnwind = []) ∧
    ((⟨[10, 12], 3⟩ : UnionVec Nat).len =
      (⟨[0, 1, 2], 3⟩ : UnionVec Nat).data.countP
        (keptBy fun n => if n = 1 then some none else some (some (n + 10)))) := by
  refine ⟨?_, ?_, ?_, ?_⟩
  · exact (claim_C7_panic_len_zero
      (fun n => if n = 1 then none else some (n + 10))
      (fun n => if n = 1 then some none else if n = 2 then none
        else some (some (n + 10)))
      ⟨[0, 1, 2], 3⟩ ⟨[0, 1, 2], 3⟩).1 ⟨0, [10], [2]⟩ (by rfl)
  · exact (claim_C7_panic_len_zero
      (fun n => some (n + 10))
      (fun n => if n = 1 then some none else if n = 2 then none
        else some (some (n + 10)))
      ⟨[0, 1, 2], 3⟩ ⟨[0, 1, 2], 3⟩).2.1 ⟨[10, 11, 12], 3⟩ (by rfl)
  · exact (claim_C7_panic_len_zero
      (fun n => if n = 1 then none else some (n + 10))
      (fun n => if n = 1 then some none else if n = 2 then none
        else some (some (n + 10)))
      ⟨[0, 1, 2], 3⟩ ⟨[0, 1, 2], 3⟩).2.2.1 ⟨0, [10], []⟩ (by rfl)
  · exact (claim_C7_panic_len_zero
      (fun n => if n = 1 then none else some (n + 10))
      (fun n => if n = 1 then some none else some (some (n + 10)))
      ⟨[0, 1, 2], 3⟩ ⟨[0, 1, 2], 3⟩).2.2.2 ⟨[10, 12], 3⟩ (by rfl)

/-- C8: constructing a typed handle from a value and converting it back yields
the value unchanged (write-then-read of the same union member), and pushing a
value onto any vector and immediately popping returns it, leaving the prior
elements intact. -/
theorem claim_C8_round_trip {α β : Type} (x : α) (v : UnionVec α) :
    SelectHandle.into (SelectHandle.from_val x : SelectHandle α β) = some x ∧
    ((UnionVec.push v x).pop).1 = some x ∧
    ((UnionVec.push v x).pop).2.data = v.data := by
  have hl : (v.data ++ [x]).getLast? = some x := by simp
  have hd : (v.data ++ [x]).dropLast = v.data := by simp
  refine ⟨rfl, ?_, ?_⟩
  · simp [UnionVec.push, UnionVec.pop, hl]
  · simp [UnionVec.push, UnionVec.pop, hl, hd]

/-- C9: `UnionVec::pop` returns `none` exactly on the empty vector; otherwise
it returns the last (highest-index) element, shrinks the length by exactly
one, and leaves the capacity unchanged. -/
theorem claim_C9_pop_spec {α : Type} (v : UnionVec α) :
    ((UnionVec.pop v).1 = none ↔ v.len = 0) ∧
    (UnionVec.pop v).1 = v.data.getLast? ∧
    (v.len ≠ 0 →
      (UnionVec.pop v).2.len = v.len - 1 ∧
      (UnionVec.pop v).2.cap = v.cap) := by
  obtain ⟨data, cap⟩ := v
  rcases List.eq_nil_or_concat data with rfl | ⟨L, b, rfl⟩
  · simp [UnionVec.pop, UnionVec.len]
  · have hl : (L ++ [b]).getLast? = some b := by simp
    have hd : (L ++ [b]).dropLast = L := by simp
    simp [UnionVec.pop, UnionVec.len, hl, hd]

/-- C9 witness at a concrete non-empty vector. -/
theorem claim_C9_witness :
    (UnionVec.pop (⟨[5, 7], 4⟩ : UnionVec Nat)).2.len =
      (⟨[5, 7], 4⟩ : UnionVec Nat).len - 1 ∧
    (UnionVec.pop (⟨[5, 7], 4⟩ : UnionVec Nat)).2.cap =
      (⟨[5, 7], 4⟩ : UnionVec Nat).cap :=
  (claim_C9_pop_spec ⟨[5, 7], 4⟩).2.2 (by decide)

/-- C10: `with_capacity n` yields length 0 and capacity at least `n`, and
pushing up to `n` elements onto it triggers no reallocation (the capacity is
untouched); `new` yields length 0 and capacity 0, performing no allocation
until an element is pushed. -/
theorem claim_C10_construction {α : Type} (n : Nat) (xs : List α)
    (h : xs.length ≤ n) :
    (UnionVec.new : UnionVec α).len = 0 ∧
    (UnionVec.new : UnionVec α).cap = 0 ∧
    (UnionVec.with_capacity n : UnionVec α).len = 0 ∧
    n ≤ (UnionVec.with_capacity n : UnionVec α).cap ∧
    (UnionVec.pushAll (UnionVec.with_capacity n : UnionVec α) xs).cap =
      (UnionVec.with_capacity n : UnionVec α).cap := by
  refine ⟨rfl, rfl, rfl, Nat.le_refl n, ?_⟩
  exact (pushAll_cap_data xs (UnionVec.with_capacity n) (by
    simpa [UnionVec.with_capacity] using h)).1

/-- C10 witness: a vector created with capacity 2 absorbs two pushes without
reallocating. -/
theorem claim_C10_witness :
    (UnionVec.new : UnionVec Nat).len = 0 ∧
    (UnionVec.new : UnionVec Nat).cap = 0 ∧
    (UnionVec.with_capacity 2 : UnionVec Nat).len = 0 ∧
    2 ≤ (UnionVec.with_capacity 2 : UnionVec Nat).cap ∧
    (UnionVec.pushAll (UnionVec.with_capacity 2 : UnionVec Nat) [4, 5]).cap =
      (UnionVec.with_capacity 2 : UnionVec Nat).cap :=
  claim_C10_construction 2 [4, 5] (by decide)

end AnyVec
